import Mathlib

/-!
# Verification of `stl::arc` / `stl::weak_arc` (src/include/stl/arc.hpp)

Shallow embedding of the atomically reference-counted shared/weak pointer
pair. The embedding models one allocation group (one control block) and the
sequences of handle operations that act on it; all claims in scope concern
handles derived from a single allocation.

Modelling conventions:
* `std::size_t` counters are modelled as unbounded `Nat`. Wraparound of the
  64-bit counters is not reachable in the modelled traces: each live handle
  occupies distinct storage, so the number of live handles (which equals the
  count, as proved below) can never reach `2^64` in a real address space, and
  decrements (`fetch_sub`) only happen while a handle holds a reference, i.e.
  while the count is positive.
* Destruction / deallocation events (`delete this`, `delete[] _data`, payload
  destructor runs) are recorded as event counters in the block state, so that
  "exactly once" and "never" claims become equations about those counters.
* A handle in the one-allocation world is its `_block` pointer: `true` means
  it points at the allocation's control block, `false` means `nullptr`.
* The sequential trace machine covers constructions, clones (copy), and
  destructions of both handle kinds, plus `lock`. Copy-assignment is the
  composition of a destruction-effect and a clone-effect on the counters, and
  moves change no counts, so they add no distinct transitions at this level;
  their handle-local effects are modelled separately as pure functions.
-/

namespace stl

/-- A strong or weak handle's `_block` pointer in the one-allocation world:
`true` ↔ it points at the control block, `false` ↔ `nullptr`. -/
abbrev Handle := Bool

/-! ## Single-object variant: `arc<T>` control block (arc.hpp lines 97-131) -/

namespace arcObj

/-- State of `arc<T>::control_block` plus destruction-event counters.
`ref_count`/`weak_count` are the two atomic counters; `object_dtors` counts
runs of the inline `_object`'s destructor (which `~control_block() = default`
performs as part of `delete this`); `block_deletes` counts executions of
`delete this`. -/
structure control_block where
  ref_count : Nat
  weak_count : Nat
  object_dtors : Nat
  block_deletes : Nat
  deriving Repr, DecidableEq

/-- A freshly constructed control block: both counters start at 1
(arc.hpp lines 128-129). -/
def control_block.start : control_block := ⟨1, 1, 0, 0⟩

/-- `add_ref`: `_ref_count.fetch_add(1, relaxed)` (line 104). -/
def control_block.add_ref (cb : control_block) : control_block :=
  { cb with ref_count := cb.ref_count + 1 }

/-- `add_weak_ref`: `_weak_count.fetch_add(1, relaxed)` (line 114). -/
def control_block.add_weak_ref (cb : control_block) : control_block :=
  { cb with weak_count := cb.weak_count + 1 }

/-- `release_weak_ref` (lines 118-122): decrement `_weak_count`; if the old
value was 1, `delete this`, which runs `~control_block() = default` (hence the
inline `_object`'s destructor) and frees the block. -/
def control_block.release_weak_ref (cb : control_block) : control_block :=
  if cb.weak_count = 1 then
    { cb with weak_count := cb.weak_count - 1,
              object_dtors := cb.object_dtors + 1,
              block_deletes := cb.block_deletes + 1 }
  else
    { cb with weak_count := cb.weak_count - 1 }

/-- `release_ref` (lines 108-112): decrement `_ref_count`; if the old value
was 1, release the strong group's implicit weak unit. -/
def control_block.release_ref (cb : control_block) : control_block :=
  if cb.ref_count = 1 then
    control_block.release_weak_ref { cb with ref_count := cb.ref_count - 1 }
  else
    { cb with ref_count := cb.ref_count - 1 }

/-- `ref_count()` accessor (lines 124-126). -/
def control_block.load_ref (cb : control_block) : Nat := cb.ref_count

/-! ### `arc<T>` handle member functions (lines 20-94, 138-142) -/

/-- `arc<T>::use_count` (lines 41-43): `_block ? _block->ref_count() : 0`. -/
def use_count (h : Handle) (cb : control_block) : Nat :=
  if h then cb.load_ref else 0

/-- `arc<T>::unique` (lines 45-47). -/
def unique (h : Handle) (cb : control_block) : Bool :=
  use_count h cb = 1

/-- `arc<T>::get` (lines 49-51): `_block ? &_block->_object : nullptr`. In the
one-allocation world the inline payload's address is the single value `()`. -/
def get (h : Handle) : Option Unit :=
  if h then some () else none

/-- `arc<T>::operator bool` (lines 53-55). -/
def toBool (h : Handle) : Bool := h

/-- `arc<T>::arc(const arc&)` (lines 27-31): copy the `_block` pointer and
`add_ref` when it is non-null. Returns (new handle, updated block state). -/
def copy (h : Handle) (cb : control_block) : Handle × control_block :=
  (h, if h then cb.add_ref else cb)

/-- `arc<T>::arc(arc&&)` (line 33): take the source's pointer, null the
source, touch no counts. Returns (new handle, source afterwards, block). -/
def moveCtor (other : Handle) (cb : control_block) :
    Handle × Handle × control_block :=
  (other, false, cb)

/-- `arc<T>::~arc` (lines 35-39): `release_ref` when non-null. -/
def dtor (h : Handle) (cb : control_block) : control_block :=
  if h then cb.release_ref else cb

/-- `arc<T>::operator=(arc&&)` (lines 78-86), for distinct objects
(`this != &other`): release the destination's old reference if any, steal the
source's pointer, null the source. Returns (destination, source, block). -/
def moveAssign (self other : Handle) (cb : control_block) :
    Handle × Handle × control_block :=
  (other, false, if self then cb.release_ref else cb)

/-- `arc<T>::arc(control_block*)` (lines 138-142) applied to the (non-null)
block: stores the pointer and calls `add_ref`. -/
def fromBlock (cb : control_block) : Handle × control_block :=
  (true, cb.add_ref)

end arcObj

/-! ## `weak_arc<T>` member functions (arc.hpp lines 280-349) -/

namespace weakObj

open arcObj

/-- `weak_arc<T>::use_count` (lines 308-310). -/
def use_count (h : Handle) (cb : control_block) : Nat :=
  if h then cb.load_ref else 0

/-- `weak_arc<T>::expired` (lines 312-314): `use_count() == 0`. -/
def expired (h : Handle) (cb : control_block) : Bool :=
  use_count h cb = 0

/-- `weak_arc<T>::lock` (lines 316-322): if `_block && _block->ref_count() > 0`
return `arc<T>(_block)` (whose construction increments `_ref_count`), else an
empty `arc<T>`. Returns (resulting strong handle, updated block state). -/
def lock (h : Handle) (cb : control_block) : Handle × control_block :=
  if h = true ∧ 0 < cb.load_ref then arcObj.fromBlock cb else (false, cb)

/-- `weak_arc<T>::weak_arc(const arc<T>&)` (lines 287-291): copy the strong
handle's `_block` pointer and `add_weak_ref` when non-null. -/
def fromStrong (h : Handle) (cb : control_block) : Handle × control_block :=
  (h, if h then cb.add_weak_ref else cb)

/-- `weak_arc<T>::weak_arc(const weak_arc&)` (lines 293-297). -/
def copy (h : Handle) (cb : control_block) : Handle × control_block :=
  (h, if h then cb.add_weak_ref else cb)

/-- `weak_arc<T>::weak_arc(weak_arc&&)` (lines 299-300). -/
def moveCtor (other : Handle) (cb : control_block) :
    Handle × Handle × control_block :=
  (other, false, cb)

/-- `weak_arc<T>::~weak_arc` (lines 302-306). -/
def dtor (h : Handle) (cb : control_block) : control_block :=
  if h then cb.release_weak_ref else cb

/-- `weak_arc<T>::operator=(weak_arc&&)` (lines 337-345), distinct objects. -/
def moveAssign (self other : Handle) (cb : control_block) :
    Handle × Handle × control_block :=
  (other, false, if self then cb.release_weak_ref else cb)

end weakObj

/-! ## Trace machine for the single-object variant -/

/-- World state of one allocation group: the control block plus ghost counts
of the live non-null strong and weak handles referencing it. -/
structure WorldObj where
  cb : arcObj.control_block
  strongs : Nat
  weaks : Nat
  deriving Repr, DecidableEq

/-- Handle operations observable at the counter level. Copy-assignment is the
composition of a drop-effect and a copy-effect; moves change no counts. -/
inductive Op where
  | strongCopy
  | strongDrop
  | weakFromStrong
  | weakCopy
  | weakDrop
  | lockOp
  deriving Repr, DecidableEq

/-- The world right after `arc<T>` allocates its control block:
`strong = 1`, `weak = 1`, one live strong handle, no weak handles. -/
def WorldObj.start : WorldObj := ⟨arcObj.control_block.start, 1, 0⟩

/-- One step of the sequential trace machine: each enabled operation invokes
the corresponding member function of arc.hpp on a live (non-null) handle.
`none` means the operation has no live handle to act on. -/
def stepObj (w : WorldObj) : Op → Option WorldObj
  | .strongCopy =>
      if 1 ≤ w.strongs then
        some ⟨(arcObj.copy true w.cb).2, w.strongs + 1, w.weaks⟩
      else none
  | .strongDrop =>
      if 1 ≤ w.strongs then
        some ⟨arcObj.dtor true w.cb, w.strongs - 1, w.weaks⟩
      else none
  | .weakFromStrong =>
      if 1 ≤ w.strongs then
        some ⟨(weakObj.fromStrong true w.cb).2, w.strongs, w.weaks + 1⟩
      else none
  | .weakCopy =>
      if 1 ≤ w.weaks then
        some ⟨(weakObj.copy true w.cb).2, w.strongs, w.weaks + 1⟩
      else none
  | .weakDrop =>
      if 1 ≤ w.weaks then
        some ⟨weakObj.dtor true w.cb, w.strongs, w.weaks - 1⟩
      else none
  | .lockOp =>
      if 1 ≤ w.weaks then
        some ⟨(weakObj.lock true w.cb).2,
              w.strongs + (if (weakObj.lock true w.cb).1 then 1 else 0),
              w.weaks⟩
      else none

/-- Run a list of operations from a world state. -/
def runObj (w : WorldObj) : List Op → Option WorldObj
  | [] => some w
  | op :: ops =>
      match stepObj w op with
      | some w' => runObj w' ops
      | none => none

/-- States reachable from a fresh single-object allocation. -/
inductive ReachObj : WorldObj → Prop where
  | start : ReachObj WorldObj.start
  | step {w w' : WorldObj} {op : Op} :
      ReachObj w → stepObj w op = some w' → ReachObj w'

/-- The inductive invariant of the single-object lifecycle protocol:
the strong counter counts the live strong handles; the weak counter counts the
live weak handles plus the strong group's implicit unit (held exactly while a
strong handle is live); the block is deleted exactly once, exactly when the
weak counter reaches 0; and the inline payload's destructor runs exactly with
the block deletion. -/
def InvObj (w : WorldObj) : Prop :=
  w.cb.ref_count = w.strongs ∧
  w.cb.weak_count = w.weaks + (if 0 < w.strongs then 1 else 0) ∧
  w.cb.block_deletes = (if w.cb.weak_count = 0 then 1 else 0) ∧
  w.cb.object_dtors = w.cb.block_deletes

/-! ## Array variant: `arc<T[]>` control block (arc.hpp lines 225-267) -/

namespace arcArr

/-- State of `arc<T[]>::control_block` plus destruction-event counters.
`data_live` models `_data != nullptr`; `size` is `_size`; `buffer_frees`
counts executions of `delete[] _data`; `elem_dtors` counts element destructor
runs (`delete[]` runs one per element); `block_deletes` counts `delete this`. -/
structure control_block where
  ref_count : Nat
  weak_count : Nat
  data_live : Bool
  size : Nat
  buffer_frees : Nat
  elem_dtors : Nat
  block_deletes : Nat
  deriving Repr, DecidableEq

/-- `control_block(std::size_t n)` (lines 226-227): allocate the element
buffer (`_data = new element_type[n]`), record the size; counters start at 1. -/
def control_block.start (n : Nat) : control_block := ⟨1, 1, true, n, 0, 0, 0⟩

/-- `delete[] _data` on a live buffer: frees it once and runs the `_size`
element destructors. -/
def control_block.freeData (cb : control_block) : control_block :=
  { cb with data_live := false,
            buffer_frees := cb.buffer_frees + 1,
            elem_dtors := cb.elem_dtors + cb.size }

/-- `~control_block()` (lines 229-233): `if (_data) delete[] _data;`. -/
def control_block.runDtor (cb : control_block) : control_block :=
  if cb.data_live then cb.freeData else cb

/-- `add_ref` (lines 235-237). -/
def control_block.add_ref (cb : control_block) : control_block :=
  { cb with ref_count := cb.ref_count + 1 }

/-- `add_weak_ref` (lines 249-251). -/
def control_block.add_weak_ref (cb : control_block) : control_block :=
  { cb with weak_count := cb.weak_count + 1 }

/-- `release_weak_ref` (lines 253-257): decrement `_weak_count`; if the old
value was 1, `delete this`, which runs `~control_block()` and frees the
block. -/
def control_block.release_weak_ref (cb : control_block) : control_block :=
  if cb.weak_count = 1 then
    let d := control_block.runDtor { cb with weak_count := cb.weak_count - 1 }
    { d with block_deletes := d.block_deletes + 1 }
  else
    { cb with weak_count := cb.weak_count - 1 }

/-- `release_ref` (lines 239-247): decrement `_ref_count`; if the old value
was 1, `delete[] _data` and null it, then release the implicit weak unit. -/
def control_block.release_ref (cb : control_block) : control_block :=
  if cb.ref_count = 1 then
    control_block.release_weak_ref
      (if cb.data_live then
        control_block.freeData { cb with ref_count := cb.ref_count - 1 }
      else { cb with ref_count := cb.ref_count - 1 })
  else
    { cb with ref_count := cb.ref_count - 1 }

/-- `ref_count()` accessor (lines 259-261). -/
def control_block.load_ref (cb : control_block) : Nat := cb.ref_count

/-! ### `arc<T[]>` handle member functions (lines 151-222, 273-277) -/

/-- `arc<T[]>::use_count` (lines 169-171). -/
def use_count (h : Handle) (cb : control_block) : Nat :=
  if h then cb.load_ref else 0

/-- `arc<T[]>::get` (lines 177-179): `_block ? _block->_data : nullptr`. The
buffer's address is the single value `()` while the buffer is allocated. -/
def get (h : Handle) (cb : control_block) : Option Unit :=
  if h then (if cb.data_live then some () else none) else none

/-- `arc<T[]>::operator bool` (lines 181-183). -/
def toBool (h : Handle) : Bool := h

/-- `arc<T[]>::arc(const arc&)` (lines 155-159). -/
def copy (h : Handle) (cb : control_block) : Handle × control_block :=
  (h, if h then cb.add_ref else cb)

/-- `arc<T[]>::~arc` (lines 163-167). -/
def dtor (h : Handle) (cb : control_block) : control_block :=
  if h then cb.release_ref else cb

/-- `arc<T[]>::arc(control_block*)` (lines 273-277) applied to the non-null
block. -/
def fromBlock (cb : control_block) : Handle × control_block :=
  (true, cb.add_ref)

end arcArr

/-! ## `weak_arc<T[]>` member functions (arc.hpp lines 351-420) -/

namespace weakArr

open arcArr

/-- `weak_arc<T[]>::use_count` (lines 379-381). -/
def use_count (h : Handle) (cb : control_block) : Nat :=
  if h then cb.load_ref else 0

/-- `weak_arc<T[]>::expired` (lines 383-385). -/
def expired (h : Handle) (cb : control_block) : Bool :=
  use_count h cb = 0

/-- `weak_arc<T[]>::lock` (lines 387-393). -/
def lock (h : Handle) (cb : control_block) : Handle × control_block :=
  if h = true ∧ 0 < cb.load_ref then arcArr.fromBlock cb else (false, cb)

/-- `weak_arc<T[]>::weak_arc(const arc<T[]>&)` (lines 358-362). -/
def fromStrong (h : Handle) (cb : control_block) : Handle × control_block :=
  (h, if h then cb.add_weak_ref else cb)

/-- `weak_arc<T[]>::weak_arc(const weak_arc&)` (lines 364-368). -/
def copy (h : Handle) (cb : control_block) : Handle × control_block :=
  (h, if h then cb.add_weak_ref else cb)

/-- `weak_arc<T[]>::~weak_arc` (lines 373-377). -/
def dtor (h : Handle) (cb : control_block) : control_block :=
  if h then cb.release_weak_ref else cb

end weakArr

/-! ## Trace machine for the array variant -/

/-- World state of one array allocation group. -/
structure WorldArr where
  cb : arcArr.control_block
  strongs : Nat
  weaks : Nat
  deriving Repr, DecidableEq

/-- The world right after `arc<T[]>` allocates its control block for `n`
elements. -/
def WorldArr.start (n : Nat) : WorldArr := ⟨arcArr.control_block.start n, 1, 0⟩

/-- One step of the sequential trace machine for the array variant. -/
def stepArr (w : WorldArr) : Op → Option WorldArr
  | .strongCopy =>
      if 1 ≤ w.strongs then
        some ⟨(arcArr.copy true w.cb).2, w.strongs + 1, w.weaks⟩
      else none
  | .strongDrop =>
      if 1 ≤ w.strongs then
        some ⟨arcArr.dtor true w.cb, w.strongs - 1, w.weaks⟩
      else none
  | .weakFromStrong =>
      if 1 ≤ w.strongs then
        some ⟨(weakArr.fromStrong true w.cb).2, w.strongs, w.weaks + 1⟩
      else none
  | .weakCopy =>
      if 1 ≤ w.weaks then
        some ⟨(weakArr.copy true w.cb).2, w.strongs, w.weaks + 1⟩
      else none
  | .weakDrop =>
      if 1 ≤ w.weaks then
        some ⟨weakArr.dtor true w.cb, w.strongs, w.weaks - 1⟩
      else none
  | .lockOp =>
      if 1 ≤ w.weaks then
        some ⟨(weakArr.lock true w.cb).2,
              w.strongs + (if (weakArr.lock true w.cb).1 then 1 else 0),
              w.weaks⟩
      else none

/-- Run a list of operations from an array world state. -/
def runArr (w : WorldArr) : List Op → Option WorldArr
  | [] => some w
  | op :: ops =>
      match stepArr w op with
      | some w' => runArr w' ops
      | none => none

/-- States reachable from a fresh array allocation (of any element count). -/
inductive ReachArr : WorldArr → Prop where
  | start (n : Nat) : ReachArr (WorldArr.start n)
  | step {w w' : WorldArr} {op : Op} :
      ReachArr w → stepArr w op = some w' → ReachArr w'

/-- The inductive invariant of the array lifecycle protocol: the counters
track live handles as in the single-object variant; the element buffer is
live exactly while a strong handle is, is freed exactly once — by the strong
count's 1→0 transition — with all element destructors running at that point;
and the block is deleted exactly once, when the weak count reaches 0. -/
def InvArr (w : WorldArr) : Prop :=
  w.cb.ref_count = w.strongs ∧
  w.cb.weak_count = w.weaks + (if 0 < w.strongs then 1 else 0) ∧
  w.cb.data_live = (decide (0 < w.strongs)) ∧
  w.cb.buffer_frees = (if 0 < w.strongs then 0 else 1) ∧
  w.cb.elem_dtors = (if 0 < w.strongs then 0 else w.cb.size) ∧
  w.cb.block_deletes = (if w.cb.weak_count = 0 then 1 else 0)

theorem invObj_start : InvObj WorldObj.start := by
  simp [InvObj, WorldObj.start, arcObj.control_block.start]

theorem invObj_step {w w' : WorldObj} {op : Op}
    (hi : InvObj w) (hs : stepObj w op = some w') : InvObj w' := by
  obtain ⟨h1, h2, h3, h4⟩ := hi
  cases op <;>
    simp only [stepObj, arcObj.copy, arcObj.dtor, weakObj.fromStrong,
      weakObj.copy, weakObj.dtor, weakObj.lock, arcObj.fromBlock,
      arcObj.control_block.add_ref, arcObj.control_block.add_weak_ref,
      arcObj.control_block.release_ref, arcObj.control_block.release_weak_ref,
      arcObj.control_block.load_ref] at hs
  all_goals repeat' split at hs
  all_goals (try cases hs)
  all_goals simp only [InvObj]
  all_goals first
    | (split_ifs at h2 h3 ⊢ <;> first | omega | (exfalso; assumption))
    | simp_all

theorem invObj_reach {w : WorldObj} (h : ReachObj w) : InvObj w := by
  induction h with
  | start => exact invObj_start
  | step _ hs ih => exact invObj_step ih hs

theorem invArr_start (n : Nat) : InvArr (WorldArr.start n) := by
  simp [InvArr, WorldArr.start, arcArr.control_block.start]

theorem invArr_step {w w' : WorldArr} {op : Op}
    (hi : InvArr w) (hs : stepArr w op = some w') : InvArr w' := by
  obtain ⟨h1, h2, h3, h4, h5, h6⟩ := hi
  cases op <;>
    simp only [stepArr, arcArr.copy, arcArr.dtor, weakArr.fromStrong,
      weakArr.copy, weakArr.dtor, weakArr.lock, arcArr.fromBlock,
      arcArr.control_block.add_ref, arcArr.control_block.add_weak_ref,
      arcArr.control_block.release_ref, arcArr.control_block.release_weak_ref,
      arcArr.control_block.runDtor, arcArr.control_block.freeData,
      arcArr.control_block.load_ref] at hs
  all_goals repeat' split at hs
  all_goals (try cases hs)
  all_goals simp only [InvArr]
  all_goals first
    | (split_ifs at h2 h4 h5 h6 ⊢ <;>
        first
          | omega
          | (exfalso; assumption)
          | (simp_all <;> omega))
    | simp_all

theorem invArr_reach {w : WorldArr} (h : ReachArr w) : InvArr w := by
  induction h with
  | start n => exact invArr_start n
  | step _ hs ih => exact invArr_step ih hs

/-! ## Helper lemmas -/

/-- Once the strong count is 0, no single step revives it: the only
strong-handle producers are the copy constructor (needs a live strong handle)
and `lock` (guarded by `ref_count > 0`). -/
theorem stepObj_strongs_zero {w w' : WorldObj} {op : Op}
    (hi : InvObj w) (h0 : w.strongs = 0) (hs : stepObj w op = some w') :
    w'.strongs = 0 := by
  obtain ⟨h1, _, _, _⟩ := hi
  cases op <;>
    simp only [stepObj, weakObj.lock, arcObj.fromBlock,
      arcObj.control_block.load_ref] at hs
  all_goals repeat' split at hs
  all_goals (try cases hs)
  all_goals simp_all

/-- `runObj` preserves the invariant together with strong-count extinction. -/
theorem runObj_strongs_zero {ops : List Op} {w w' : WorldObj}
    (hi : InvObj w) (h0 : w.strongs = 0) (hrun : runObj w ops = some w') :
    InvObj w' ∧ w'.strongs = 0 := by
  induction ops generalizing w with
  | nil => cases hrun; exact ⟨hi, h0⟩
  | cons op ops ih =>
      simp only [runObj] at hrun
      cases hstep : stepObj w op with
      | none => rw [hstep] at hrun; cases hrun
      | some w1 =>
          rw [hstep] at hrun
          exact ih (invObj_step hi hstep) (stepObj_strongs_zero hi h0 hstep) hrun

/-- Array-variant analogue of `stepObj_strongs_zero`. -/
theorem stepArr_strongs_zero {w w' : WorldArr} {op : Op}
    (hi : InvArr w) (h0 : w.strongs = 0) (hs : stepArr w op = some w') :
    w'.strongs = 0 := by
  obtain ⟨h1, _, _, _, _, _⟩ := hi
  cases op <;>
    simp only [stepArr, weakArr.lock, arcArr.fromBlock,
      arcArr.control_block.load_ref] at hs
  all_goals repeat' split at hs
  all_goals (try cases hs)
  all_goals simp_all

/-- Every step preserves the stored element count `_size`. -/
theorem stepArr_size {w w' : WorldArr} {op : Op}
    (hs : stepArr w op = some w') : w'.cb.size = w.cb.size := by
  cases op <;>
    simp only [stepArr, arcArr.copy, arcArr.dtor, weakArr.fromStrong,
      weakArr.copy, weakArr.dtor, weakArr.lock, arcArr.fromBlock,
      arcArr.control_block.add_ref, arcArr.control_block.add_weak_ref,
      arcArr.control_block.release_ref, arcArr.control_block.release_weak_ref,
      arcArr.control_block.runDtor, arcArr.control_block.freeData,
      arcArr.control_block.load_ref] at hs
  all_goals repeat' split at hs
  all_goals (try cases hs)
  all_goals simp_all

/-- Running `m` strong-handle copies from any world with a live strong handle
adds `m` to the strong count and touches nothing else. -/
theorem runObj_copies (m : Nat) (w : WorldObj) (hs : 1 ≤ w.strongs) :
    runObj w (List.replicate m Op.strongCopy) =
      some ⟨{ w.cb with ref_count := w.cb.ref_count + m },
            w.strongs + m, w.weaks⟩ := by
  induction m generalizing w with
  | zero => simp [runObj]
  | succ m ih =>
      rw [List.replicate_succ]
      have h1 : stepObj w .strongCopy =
          some ⟨{ w.cb with ref_count := w.cb.ref_count + 1 },
                w.strongs + 1, w.weaks⟩ := by
        simp [stepObj, arcObj.copy, arcObj.control_block.add_ref, if_pos hs]
      simp only [runObj, h1]
      rw [ih _ (by simp)]
      simp only [Option.some.injEq, WorldObj.mk.injEq,
        arcObj.control_block.mk.injEq, and_true, true_and]
      omega

/-- Destroying the last strong handle while the weak counter is not about to
hit zero: decrement both counters, run no destructor. -/
theorem dtorObj_last_strong {cb : arcObj.control_block}
    (hr : cb.ref_count = 1) (hw : cb.weak_count ≠ 1) :
    arcObj.dtor true cb =
      { cb with ref_count := 0, weak_count := cb.weak_count - 1 } := by
  simp [arcObj.dtor, arcObj.control_block.release_ref,
    arcObj.control_block.release_weak_ref, hr, hw]

/-- Destroying a weak handle that is not the block's last claim. -/
theorem wdtorObj_not_last {cb : arcObj.control_block}
    (hw : cb.weak_count ≠ 1) :
    weakObj.dtor true cb = { cb with weak_count := cb.weak_count - 1 } := by
  simp [weakObj.dtor, arcObj.control_block.release_weak_ref, hw]

/-- Destroying the weak handle holding the block's last claim: the block is
deleted and (single-object variant) the inline payload's destructor runs. -/
theorem wdtorObj_last {cb : arcObj.control_block}
    (hw : cb.weak_count = 1) :
    weakObj.dtor true cb =
      { cb with weak_count := 0, object_dtors := cb.object_dtors + 1,
                block_deletes := cb.block_deletes + 1 } := by
  simp [weakObj.dtor, arcObj.control_block.release_weak_ref, hw]

/-! ## Claims -/

/-- C1: `lock()` reads `strong_count`; on a non-null weak handle with a
nonzero read it returns a new non-null strong handle to the same control
block whose construction itself increments `strong_count` by one (nothing
else changes); on a null handle or a zero read it returns an empty strong
handle and changes no state. Both variants. -/
theorem C1_lock_promotion (h : Handle) (cb : arcObj.control_block)
    (ca : arcArr.control_block) :
    ((h = true ∧ 0 < cb.ref_count) →
      weakObj.lock h cb =
        (true, { cb with ref_count := cb.ref_count + 1 })) ∧
    ((h = false ∨ cb.ref_count = 0) → weakObj.lock h cb = (false, cb)) ∧
    ((h = true ∧ 0 < ca.ref_count) →
      weakArr.lock h ca =
        (true, { ca with ref_count := ca.ref_count + 1 })) ∧
    ((h = false ∨ ca.ref_count = 0) → weakArr.lock h ca = (false, ca)) := by
  refine ⟨?_, ?_, ?_, ?_⟩
  · rintro ⟨rfl, hpos⟩
    simp [weakObj.lock, arcObj.fromBlock, arcObj.control_block.add_ref,
      arcObj.control_block.load_ref, hpos]
  · rintro (rfl | hzero)
    · simp [weakObj.lock]
    · simp [weakObj.lock, arcObj.control_block.load_ref, hzero]
  · rintro ⟨rfl, hpos⟩
    simp [weakArr.lock, arcArr.fromBlock, arcArr.control_block.add_ref,
      arcArr.control_block.load_ref, hpos]
  · rintro (rfl | hzero)
    · simp [weakArr.lock]
    · simp [weakArr.lock, arcArr.control_block.load_ref, hzero]

theorem C1_lock_promotion_witness :
    weakObj.lock true ⟨2, 1, 0, 0⟩ =
      (true, (⟨3, 1, 0, 0⟩ : arcObj.control_block)) ∧
    weakObj.lock true ⟨0, 1, 0, 0⟩ =
      (false, (⟨0, 1, 0, 0⟩ : arcObj.control_block)) ∧
    weakArr.lock true ⟨2, 2, true, 4, 0, 0, 0⟩ =
      (true, (⟨3, 2, true, 4, 0, 0, 0⟩ : arcArr.control_block)) :=
  ⟨(C1_lock_promotion true ⟨2, 1, 0, 0⟩ ⟨1, 1, true, 0, 0, 0, 0⟩).1
      ⟨rfl, by decide⟩,
   (C1_lock_promotion true ⟨0, 1, 0, 0⟩ ⟨1, 1, true, 0, 0, 0, 0⟩).2.1
      (Or.inr rfl),
   (C1_lock_promotion true ⟨1, 1, 0, 0⟩ ⟨2, 2, true, 4, 0, 0, 0⟩).2.2.1
      ⟨rfl, by decide⟩⟩

/-- C2: single-object variant. The inline payload's destructor runs exactly
when the control block is deallocated (the two event counters always agree),
never while any handle is still live; dropping the last strong handle while a
weak handle is outstanding does not destroy the payload (even though the
strong count reaches 0); dropping a weak handle from the all-strong-gone
state destroys the payload precisely when it is the last weak handle. -/
theorem C2_object_payload_deferred (w : WorldObj) (hr : ReachObj w) :
    (w.cb.object_dtors = w.cb.block_deletes) ∧
    ((1 ≤ w.weaks ∨ 1 ≤ w.strongs) → w.cb.object_dtors = 0) ∧
    (w.strongs = 1 → 1 ≤ w.weaks →
      ∃ w', stepObj w Op.strongDrop = some w' ∧
        w'.cb.object_dtors = 0 ∧ w'.cb.ref_count = 0) ∧
    (w.strongs = 0 → 1 ≤ w.weaks →
      ∃ w', stepObj w Op.weakDrop = some w' ∧
        w'.cb.object_dtors = (if w.weaks = 1 then 1 else 0)) := by
  obtain ⟨h1, h2, h3, h4⟩ := invObj_reach hr
  refine ⟨h4, ?_, ?_, ?_⟩
  · intro hlive
    split_ifs at h2 h3 <;> omega
  · intro hs1 hw
    have hwk : w.cb.weak_count ≠ 1 := by split_ifs at h2 <;> omega
    refine ⟨⟨arcObj.dtor true w.cb, w.strongs - 1, w.weaks⟩, ?_, ?_, ?_⟩
    · simp only [stepObj, if_pos (show 1 ≤ w.strongs by omega)]
    · rw [dtorObj_last_strong (by omega) hwk]
      split_ifs at h2 h3 <;> simp <;> omega
    · rw [dtorObj_last_strong (by omega) hwk]
  · intro hs0 hw
    have hwc : w.cb.weak_count = w.weaks := by split_ifs at h2 <;> omega
    refine ⟨⟨weakObj.dtor true w.cb, w.strongs, w.weaks - 1⟩, ?_, ?_⟩
    · simp only [stepObj, if_pos hw]
    · by_cases hone : w.weaks = 1
      · rw [wdtorObj_last (by omega)]
        split_ifs at h3 <;> simp [hone] <;> omega
      · rw [wdtorObj_not_last (by omega)]
        split_ifs at h3 <;> simp [hone] <;> omega

theorem C2_object_payload_deferred_witness :
    ∃ w', stepObj ⟨⟨1, 2, 0, 0⟩, 1, 1⟩ Op.strongDrop = some w' ∧
      w'.cb.object_dtors = 0 ∧ w'.cb.ref_count = 0 :=
  (C2_object_payload_deferred ⟨⟨1, 2, 0, 0⟩, 1, 1⟩
      (ReachObj.step ReachObj.start
        (show stepObj WorldObj.start Op.weakFromStrong =
          some ⟨⟨1, 2, 0, 0⟩, 1, 1⟩ by decide))).2.2.1 rfl (by decide)

/-- C3: array variant. The element buffer is freed exactly once, exactly at
the strong count's 1→0 transition — all element destructors run there —
independent of the number of outstanding weak handles; afterwards no
operation (in particular not the eventual control-block deallocation) frees
it again. -/
theorem C3_array_buffer_on_last_strong (w : WorldArr) (hr : ReachArr w) :
    (w.cb.buffer_frees = (if 0 < w.strongs then 0 else 1)) ∧
    (w.cb.elem_dtors = (if 0 < w.strongs then 0 else w.cb.size)) ∧
    (w.strongs = 1 →
      ∃ w', stepArr w Op.strongDrop = some w' ∧
        w'.cb.buffer_frees = 1 ∧ w'.cb.elem_dtors = w.cb.size) ∧
    (w.strongs = 0 → ∀ op w', stepArr w op = some w' →
      w'.cb.buffer_frees = 1 ∧ w'.cb.elem_dtors = w.cb.size) := by
  obtain ⟨h1, h2, h3, h4, h5, h6⟩ := invArr_reach hr
  refine ⟨h4, h5, ?_, ?_⟩
  · intro hs1
    have hstep : stepArr w Op.strongDrop =
        some ⟨arcArr.dtor true w.cb, w.strongs - 1, w.weaks⟩ := by
      simp only [stepArr, if_pos (show 1 ≤ w.strongs by omega)]
    have hr' := ReachArr.step hr hstep
    obtain ⟨g1, g2, g3, g4, g5, g6⟩ := invArr_reach hr'
    have hsz := stepArr_size hstep
    simp only [hs1] at g4 g5
    simp at g4 g5 hsz
    exact ⟨_, hstep, by simpa using g4, by simp; omega⟩
  · intro hs0 op w' hstep
    have hr' : ReachArr w' := ReachArr.step hr hstep
    obtain ⟨g1, g2, g3, g4, g5, g6⟩ := invArr_reach hr'
    have hz : w'.strongs = 0 :=
      stepArr_strongs_zero ⟨h1, h2, h3, h4, h5, h6⟩ hs0 hstep
    have hsz := stepArr_size hstep
    rw [hz] at g4 g5; simp at g4 g5; omega

theorem C3_array_buffer_on_last_strong_witness :
    ∃ w', stepArr ⟨⟨1, 2, true, 2, 0, 0, 0⟩, 1, 1⟩ Op.strongDrop = some w' ∧
      w'.cb.buffer_frees = 1 ∧ w'.cb.elem_dtors = 2 :=
  (C3_array_buffer_on_last_strong ⟨⟨1, 2, true, 2, 0, 0, 0⟩, 1, 1⟩
      (ReachArr.step (ReachArr.start 2)
        (show stepArr (WorldArr.start 2) Op.weakFromStrong =
          some ⟨⟨1, 2, true, 2, 0, 0, 0⟩, 1, 1⟩ by decide))).2.2.1 rfl

/-- C4: in every operation sequence from one allocation, the control block is
deallocated exactly once, exactly when `weak_count` reaches 0 (the last
strong handle's destruction contributing one weak decrement): in every
reachable state the number of `delete this` executions is 1 if the weak
counter is 0 and 0 otherwise. Both variants. -/
theorem C4_block_freed_once (w : WorldObj) (hr : ReachObj w)
    (wa : WorldArr) (hra : ReachArr wa) :
    (w.cb.block_deletes = (if w.cb.weak_count = 0 then 1 else 0)) ∧
    (wa.cb.block_deletes = (if wa.cb.weak_count = 0 then 1 else 0)) :=
  ⟨(invObj_reach hr).2.2.1, (invArr_reach hra).2.2.2.2.2⟩

theorem C4_block_freed_once_witness :
    (WorldObj.start.cb.block_deletes =
      (if WorldObj.start.cb.weak_count = 0 then 1 else 0)) ∧
    ((WorldArr.start 3).cb.block_deletes =
      (if (WorldArr.start 3).cb.weak_count = 0 then 1 else 0)) :=
  C4_block_freed_once WorldObj.start ReachObj.start
    (WorldArr.start 3) (ReachArr.start 3)

/-- C5: once all strong handles are gone while at least one weak handle
remains, every subsequent reachable state still has a zero strong count, so
every later `expired()` call returns true and every later `lock()` call
returns an empty handle with no state change. -/
theorem C5_expired_forever (w : WorldObj) (hr : ReachObj w)
    (h0 : w.strongs = 0) (hw : 1 ≤ w.weaks)
    (ops : List Op) (w' : WorldObj) (hrun : runObj w ops = some w')
    (hw' : 1 ≤ w'.weaks) :
    weakObj.expired true w'.cb = true ∧
    weakObj.lock true w'.cb = (false, w'.cb) ∧
    w'.cb.ref_count = 0 := by
  obtain ⟨hi', hz⟩ := runObj_strongs_zero (invObj_reach hr) h0 hrun
  have hre : w'.cb.ref_count = 0 := by rw [hi'.1, hz]
  refine ⟨?_, ?_, hre⟩
  · simp [weakObj.expired, weakObj.use_count, arcObj.control_block.load_ref,
      hre]
  · simp [weakObj.lock, arcObj.control_block.load_ref, hre]

theorem C5_expired_forever_witness :
    weakObj.expired true (⟨0, 1, 0, 0⟩ : arcObj.control_block) = true ∧
    weakObj.lock true (⟨0, 1, 0, 0⟩ : arcObj.control_block) =
      (false, (⟨0, 1, 0, 0⟩ : arcObj.control_block)) ∧
    (⟨0, 1, 0, 0⟩ : arcObj.control_block).ref_count = 0 :=
  C5_expired_forever ⟨⟨0, 1, 0, 0⟩, 0, 1⟩
    (ReachObj.step (ReachObj.step ReachObj.start
      (show stepObj WorldObj.start Op.weakFromStrong =
        some ⟨⟨1, 2, 0, 0⟩, 1, 1⟩ by decide))
      (show stepObj ⟨⟨1, 2, 0, 0⟩, 1, 1⟩ Op.strongDrop =
        some ⟨⟨0, 1, 0, 0⟩, 0, 1⟩ by decide))
    rfl (by decide) [] ⟨⟨0, 1, 0, 0⟩, 0, 1⟩ rfl (by decide)

/-- C6: round-trip. From any reachable state with a live strong handle,
deriving a weak handle from it and locking that weak handle (while the strong
handle is still alive) yields a non-null strong handle whose `get()` equals
the original handle's `get()` (the shared payload's address). -/
theorem C6_weak_roundtrip (w : WorldObj) (hr : ReachObj w)
    (hs : 1 ≤ w.strongs) :
    ∃ w', stepObj w Op.weakFromStrong = some w' ∧
      (weakObj.lock true w'.cb).1 = true ∧
      arcObj.get (weakObj.lock true w'.cb).1 = arcObj.get true ∧
      arcObj.get true = some () := by
  obtain ⟨h1, _, _, _⟩ := invObj_reach hr
  have hpos : 0 < w.cb.ref_count := by omega
  refine ⟨⟨(weakObj.fromStrong true w.cb).2, w.strongs, w.weaks + 1⟩, ?_,
    ?_, ?_, rfl⟩
  · simp only [stepObj, if_pos hs]
  · simp [weakObj.lock, weakObj.fromStrong, arcObj.fromBlock,
      arcObj.control_block.add_weak_ref, arcObj.control_block.load_ref, hpos]
  · simp [weakObj.lock, weakObj.fromStrong, arcObj.fromBlock,
      arcObj.control_block.add_weak_ref, arcObj.control_block.load_ref, hpos]

theorem C6_weak_roundtrip_witness :
    ∃ w', stepObj WorldObj.start Op.weakFromStrong = some w' ∧
      (weakObj.lock true w'.cb).1 = true ∧
      arcObj.get (weakObj.lock true w'.cb).1 = arcObj.get true ∧
      arcObj.get true = some () :=
  C6_weak_roundtrip WorldObj.start ReachObj.start (by decide)

/-- C7: after constructing one strong handle and making N-1 copies (no
destructions, single-threaded), `use_count()` on any of the N live handles
returns exactly N. -/
theorem C7_use_count_counts_clones (N : Nat) (hN : 1 ≤ N) :
    ∃ w, runObj WorldObj.start (List.replicate (N - 1) Op.strongCopy) =
        some w ∧
      arcObj.use_count true w.cb = N ∧ w.strongs = N := by
  refine ⟨⟨{ WorldObj.start.cb with
      ref_count := WorldObj.start.cb.ref_count + (N - 1) },
      WorldObj.start.strongs + (N - 1), WorldObj.start.weaks⟩,
    runObj_copies (N - 1) WorldObj.start (by decide), ?_, ?_⟩
  · simp [arcObj.use_count, arcObj.control_block.load_ref, WorldObj.start,
      arcObj.control_block.start]
    omega
  · simp [WorldObj.start]
    omega

theorem C7_use_count_counts_clones_witness :
    ∃ w, runObj WorldObj.start (List.replicate 2 Op.strongCopy) = some w ∧
      arcObj.use_count true w.cb = 3 ∧ w.strongs = 3 :=
  C7_use_count_counts_clones 3 (by decide)

/-- C8: a default-constructed (null) strong or weak handle is a valid inert
state: boolean conversion is false, `use_count()` is 0, and destroying,
copying, or moving it leaves the control-block state untouched (no count
operation, no destructor run, no deallocation). Both variants. -/
theorem C8_null_handles_inert (cb : arcObj.control_block)
    (ca : arcArr.control_block) :
    arcObj.toBool false = false ∧
    arcObj.use_count false cb = 0 ∧
    arcObj.dtor false cb = cb ∧
    arcObj.copy false cb = (false, cb) ∧
    arcObj.moveCtor false cb = (false, false, cb) ∧
    weakObj.use_count false cb = 0 ∧
    weakObj.dtor false cb = cb ∧
    weakObj.copy false cb = (false, cb) ∧
    weakObj.moveCtor false cb = (false, false, cb) ∧
    arcArr.toBool false = false ∧
    arcArr.use_count false ca = 0 ∧
    arcArr.dtor false ca = ca ∧
    arcArr.copy false ca = (false, ca) :=
  ⟨rfl, rfl, rfl, rfl, rfl, rfl, rfl, rfl, rfl, rfl, rfl, rfl, rfl⟩

/-- C9 as stated is false: move assignment onto a non-empty destination does
change `strong_count`, because the destination first releases its old
reference. Concretely, with two live strong handles (count 2), move-assigning
one onto the other leaves the count at 1, not 2. -/
theorem C9_move_counterexample :
    ¬((arcObj.moveAssign true true
        (⟨2, 1, 0, 0⟩ : arcObj.control_block)).2.2 =
      (⟨2, 1, 0, 0⟩ : arcObj.control_block)) := by decide

/-- C9 (amended): move construction of a strong or weak handle transfers
ownership touching no counts and nulls the source; move assignment nulls the
source and adds no count for the transferred reference, but a non-empty
destination first releases its previously held reference (`release_ref`
resp. `release_weak_ref`); only with an empty destination is all state
unchanged. A moved-from handle is null: boolean-false with `use_count` 0. -/
theorem C9_move_semantics (cb : arcObj.control_block) (other : Handle) :
    arcObj.moveCtor other cb = (other, false, cb) ∧
    arcObj.moveAssign false other cb = (other, false, cb) ∧
    arcObj.moveAssign true other cb = (other, false, cb.release_ref) ∧
    arcObj.toBool false = false ∧
    arcObj.use_count false cb = 0 ∧
    weakObj.moveCtor other cb = (other, false, cb) ∧
    weakObj.moveAssign false other cb = (other, false, cb) ∧
    weakObj.moveAssign true other cb = (other, false, cb.release_weak_ref) :=
  ⟨rfl, rfl, rfl, rfl, rfl, rfl, rfl, rfl⟩

/-- C10: `get()` on a null handle returns a null pointer (it is total), for
both the single-object and the array variant. -/
theorem C10_get_null_total (ca : arcArr.control_block) :
    arcObj.get false = none ∧ arcArr.get false ca = none :=
  ⟨rfl, rfl⟩

end stl
